import Mathlib

/-!
Verification of the request-batching engine of the llm-proxy repository.

The Go source is shallowly embedded: the batching worker
(`processUploadAndCreateBatch`), the batch executor (`processBatch`,
`processBatchResponse`), the response demultiplexer (`processFileContent`),
the error synthesis helpers (`sendErrorResponse`, `sendErrorToAllRequests`),
the status poller (`pollBatchStatus`), the statistics counters (`stats.go`)
and the correlation-id generator are translated into executable Lean
definitions, and the spec's claims are settled against them.
-/

namespace LlmProxy

/-! ## Batching worker (`processUploadAndCreateBatch`, http_client.go lines 304-375)

The worker loops on a `select` with three cases: an envelope arrives on the
lane's ingest channel, `time.After(200 * time.Millisecond)` fires, or the
shutdown channel is closed.  Because `time.After` is called anew on every
loop iteration, the timeout case can only fire after a full tick interval
during which no envelope arrived; an arrival event therefore always carries
an elapsed time smaller than the tick interval.  Times are in milliseconds. -/

/-- Configuration of the worker: `maxBatchSize`, `maxBatchMb * 1024 * 1024`,
`maxHoldBatchSend`, and the 200 ms literal in the `time.After` case. -/
structure WorkerParams where
  maxBatchSize : Nat
  maxBatchBytes : Nat
  maxHoldMs : Nat
  tickMs : Nat
deriving Repr, DecidableEq

/-- The defaults from http_client.go lines 137-139 and the 200 ms tick. -/
def defaultParams : WorkerParams :=
  { maxBatchSize := 1000
    maxBatchBytes := 25 * 1024 * 1024
    maxHoldMs := 4000
    tickMs := 200 }

/-- One serialized request line (`jsonReq` after the newline is appended):
its correlation id and its byte length including the trailing newline. -/
structure JsonlLine where
  customID : String
  len : Nat
deriving Repr, DecidableEq

/-- A batch handed to `processBatch`: the accumulated lines and the
`batchBytes` counter at the moment of the flush. -/
structure EmittedBatch where
  lines : List JsonlLine
  payloadBytes : Nat
deriving Repr, DecidableEq

/-- Worker-local state: `batch`/`jsonlData` (the buffered lines),
`batchBytes`, the current wall clock, and `batchStart`. -/
structure WorkerState where
  batch : List JsonlLine
  batchBytes : Nat
  nowMs : Nat
  batchStartMs : Nat
deriving Repr, DecidableEq

/-- Worker state at the top of `processUploadAndCreateBatch`:
empty buffer, `batchStart := time.Now()`. -/
def initWorker (t0 : Nat) : WorkerState :=
  { batch := [], batchBytes := 0, nowMs := t0, batchStartMs := t0 }

/-- The outcomes of the worker's `select`: an envelope whose serialized line
is `line` arrives `dtMs` milliseconds after the previous iteration,
`time.After` fires, or the shutdown channel is observed closed. -/
inductive WorkerEvent where
  | arrive (line : JsonlLine) (dtMs : Nat)
  | tick
  | shutdown
deriving Repr, DecidableEq

/-- In a real execution an arrival can only win the `select` if it happens
before the freshly armed 200 ms timer fires; a tick stands for a full tick
interval with no arrival. -/
def legalEvent (p : WorkerParams) : WorkerEvent → Bool
  | .arrive _ dtMs => dtMs < p.tickMs
  | .tick => true
  | .shutdown => true

/-- The flush condition evaluated on envelope arrival, http_client.go
line 329: `batchSize >= maxBatchSize || batchBytes+len(jsonReq) >
maxBatchBytes || len(batch) == 0 && len(jsonReq) > maxBatchBytes`
(`batchSize` always equals `len(batch)`). -/
def flushCond (p : WorkerParams) (s : WorkerState) (l : JsonlLine) : Bool :=
  decide (s.batch.length ≥ p.maxBatchSize) ||
  decide (s.batchBytes + l.len > p.maxBatchBytes) ||
  (s.batch.isEmpty && decide (l.len > p.maxBatchBytes))

/-- The flush block, http_client.go lines 332-337 and 357-362: hand the
buffer to `processBatch` and reset `batch`, `jsonlData`, `batchSize`,
`batchBytes` and `batchStart`. -/
def flushBuffer (s : WorkerState) : WorkerState × List EmittedBatch :=
  ({ batch := [], batchBytes := 0, nowMs := s.nowMs, batchStartMs := s.nowMs },
   [⟨s.batch, s.batchBytes⟩])

/-- Lines 341-344: append the serialized line to the buffer and bump the
`batchSize` and `batchBytes` counters. -/
def appendLine (s : WorkerState) (l : JsonlLine) : WorkerState :=
  { s with batch := s.batch ++ [l], batchBytes := s.batchBytes + l.len }

/-- One iteration of the worker loop, http_client.go lines 314-373.
Returns the new state and the batches emitted (via `safeGo4(processBatch)`)
during that iteration. -/
def workerStep (p : WorkerParams) (s : WorkerState) :
    WorkerEvent → WorkerState × List EmittedBatch
  | .arrive l dtMs =>
    let s1 : WorkerState := { s with nowMs := s.nowMs + dtMs }
    if flushCond p s1 l && !s1.batch.isEmpty then
      let fl := flushBuffer s1
      (appendLine fl.1 l, fl.2)
    else
      (appendLine s1 l, [])
  | .tick =>
    let s1 : WorkerState := { s with nowMs := s.nowMs + p.tickMs }
    if !s1.batch.isEmpty &&
        (decide (s1.nowMs - s1.batchStartMs ≥ p.maxHoldMs) ||
         decide (s1.batch.length ≥ p.maxBatchSize)) then
      flushBuffer s1
    else (s1, [])
  | .shutdown =>
    if !s.batch.isEmpty then (s, [⟨s.batch, s.batchBytes⟩]) else (s, [])

/-- Run the worker over a sequence of select outcomes, collecting every
emitted batch.  The loop returns (and the lane is removed) at the first
shutdown event. -/
def runWorker (p : WorkerParams) : WorkerState → List WorkerEvent →
    WorkerState × List EmittedBatch
  | s, [] => (s, [])
  | s, e :: rest =>
    let r := workerStep p s e
    match e with
    | .shutdown => r
    | _ =>
      let r2 := runWorker p r.1 rest
      (r2.1, r.2 ++ r2.2)

/-- The admission invariant of an emitted batch: at most `maxBatchSize`
documents, and the payload fits in `maxBatchBytes` unless it is a single
oversized document; the `batchBytes` counter agrees with the payload. -/
def goodBatch (p : WorkerParams) (b : EmittedBatch) : Prop :=
  b.lines.length ≤ p.maxBatchSize ∧
  b.payloadBytes = (b.lines.map (·.len)).sum ∧
  ((b.lines.map (·.len)).sum ≤ p.maxBatchBytes ∨ b.lines.length = 1)

/-- The buffer invariant maintained by the worker loop. -/
def bufInv (p : WorkerParams) (s : WorkerState) : Prop :=
  s.batch.length ≤ p.maxBatchSize ∧
  s.batchBytes = (s.batch.map (·.len)).sum ∧
  (s.batchBytes ≤ p.maxBatchBytes ∨ s.batch.length ≤ 1)

/-! ## Poller (`pollBatchStatus`, src/unnamed/part_004 lines 51-100)

The Go loop: `for { time.Sleep(SleepDuration); fetch; on error return; on a
terminal status return; default: time.Sleep(SleepDuration) }`.  It is
driven here by the list of successive `getBatchResponse` outcomes. -/

/-- Outcome of a single `getBatchResponse` call. -/
inductive FetchOutcome where
  | ok (status : String)
  | fail (errMsg : String)
deriving Repr, DecidableEq

/-- The `case "completed", "failed", "expired", "cancelled"` arm of the
status switch. -/
def isTerminalStatus (st : String) : Bool :=
  st == "completed" || st == "failed" || st == "expired" || st == "cancelled"

/-- Observable actions of the poller: one `time.Sleep(SleepDuration)` or one
status fetch. -/
inductive PollAction where
  | sleep
  | fetch (o : FetchOutcome)
deriving Repr, DecidableEq

/-- What `pollBatchStatus` returns: the final batch document's terminal
status, or the fetch error. -/
inductive PollResult where
  | done (status : String)
  | errored (msg : String)
deriving Repr, DecidableEq

/-- `pollBatchStatus`: each loop iteration sleeps `SleepDuration`, fetches,
returns the error on a failed fetch, returns on a terminal status, and on a
non-terminal status executes the `default` arm's second
`time.Sleep(SleepDuration)` before looping.  Returns `none` (still running)
if the outcome list is exhausted first; the transcript records every sleep
and fetch in order. -/
def pollBatchStatus : List FetchOutcome → Option PollResult × List PollAction
  | [] => (none, [.sleep])
  | o :: rest =>
    match o with
    | .fail e => (some (.errored e), [.sleep, .fetch (.fail e)])
    | .ok st =>
      if isTerminalStatus st then (some (.done st), [.sleep, .fetch (.ok st)])
      else
        let r := pollBatchStatus rest
        (r.1, .sleep :: .fetch (.ok st) :: .sleep :: r.2)

/-- Helper: the lengths of the runs of sleeps immediately preceding each
fetch of a transcript (head entry = sleeps before the first fetch;
trailing sleeps after the last fetch are not counted). -/
def sleepRuns : List PollAction → Nat → List Nat
  | [], _ => []
  | .sleep :: r, n => sleepRuns r (n + 1)
  | .fetch _ :: r, n => n :: sleepRuns r 0

/-- Sleeps before each fetch; entries after the first are the sleeps
strictly between consecutive fetches. -/
def sleepsBeforeEachFetch (tr : List PollAction) : List Nat := sleepRuns tr 0

/-- The result `pollBatchStatus` reports for the outcome that ends the
loop. -/
def pollResultOf : FetchOutcome → PollResult
  | .ok st => .done st
  | .fail e => .errored e

/-- The poll transcript for a run of non-terminal ok statuses followed by a
final outcome: sleep, fetch, extra sleep per non-terminal iteration, then
one sleep and the final fetch. -/
def pollTranscript (pre : List String) (last : FetchOutcome) : List PollAction :=
  (pre.map (fun st =>
    [PollAction.sleep, PollAction.fetch (.ok st), PollAction.sleep])).flatten
    ++ [.sleep, .fetch last]

/-! ## Correlation id generation (http_client.go line 249) -/

/-- `rand.Intn(n)`: the pseudorandom source value reduced into `[0, n)`. -/
def randIntn (n r : Nat) : Nat := r % n

/-- `customID := fmt.Sprintf("req_%d", rand.Intn(1000000))` as a function of
the pseudorandom source value `r`. -/
def genCustomID (r : Nat) : String := "req_" ++ Nat.repr (randIntn 1000000 r)

/-! ## Statistics (stats.go) -/

/-- The mutable statistics state: the seven counters and the two unbounded
timing sample lists (durations in whole milliseconds). -/
structure StatsState where
  requestsTotal : Nat
  requestsSuccessful : Nat
  requestsFailed : Nat
  batchesTotal : Nat
  batchesSuccessful : Nat
  batchesFailed : Nat
  synthesizedErrResponses : Nat
  requestTimings : List Nat
  batchTimings : List Nat
deriving Repr, DecidableEq

/-- All counters start at zero. -/
def initStats : StatsState := ⟨0, 0, 0, 0, 0, 0, 0, [], []⟩

def trackRequestStart (s : StatsState) : StatsState :=
  { s with requestsTotal := s.requestsTotal + 1 }

def trackRequestEnd (success : Bool) (durationMs : Nat) (s : StatsState) :
    StatsState :=
  let s1 :=
    if success then { s with requestsSuccessful := s.requestsSuccessful + 1 }
    else { s with requestsFailed := s.requestsFailed + 1 }
  { s1 with requestTimings := s1.requestTimings ++ [durationMs] }

def trackBatchStart (s : StatsState) : StatsState :=
  { s with batchesTotal := s.batchesTotal + 1 }

def trackBatchEnd (success : Bool) (durationMs : Nat) (s : StatsState) :
    StatsState :=
  let s1 :=
    if success then { s with batchesSuccessful := s.batchesSuccessful + 1 }
    else { s with batchesFailed := s.batchesFailed + 1 }
  { s1 with batchTimings := s1.batchTimings ++ [durationMs] }

def trackSynthesizedErrorResponse (s : StatsState) : StatsState :=
  { s with synthesizedErrResponses := s.synthesizedErrResponses + 1 }

/-- The integer fields of the document reported by `getStats` (the latency
averages and percentiles are floating-point and outside this model). -/
structure StatsCounters where
  requestsTotal : Nat
  requestsSuccessful : Nat
  requestsFailed : Nat
  synthesizedErrResponses : Nat
  batchesTotal : Nat
  batchesSuccessful : Nat
  batchesFailed : Nat
deriving Repr, DecidableEq

def getStatsCounters (s : StatsState) : StatsCounters :=
  ⟨s.requestsTotal, s.requestsSuccessful, s.requestsFailed,
   s.synthesizedErrResponses, s.batchesTotal, s.batchesSuccessful,
   s.batchesFailed⟩

/-- The statistics mutations the program performs, one constructor per call
site in the source.  `reqEnd` carries no success flag because the only call
of `trackRequestEnd` in the program (http_client.go line 286) passes the
literal `true`; `batchEnd` is called with both `true` and `false`. -/
inductive StatEvent where
  | reqStart
  | reqEnd (durationMs : Nat)
  | batchStart
  | batchEnd (success : Bool) (durationMs : Nat)
  | synthErr
deriving Repr, DecidableEq

def applyStatEvent (s : StatsState) : StatEvent → StatsState
  | .reqStart => trackRequestStart s
  | .reqEnd d => trackRequestEnd true d s
  | .batchStart => trackBatchStart s
  | .batchEnd b d => trackBatchEnd b d s
  | .synthErr => trackSynthesizedErrorResponse s

/-! ## Pending registry (`responseChanMap`) and response delivery -/

/-- A value delivered on a caller's response channel: the structured body of
a result line, the per-line error document, or a synthesized error document
whose only content is the diagnostic message. -/
inductive DeliveredVal where
  | body (payload : String)
  | lineError (err : String)
  | synthError (msg : String)
deriving Repr, DecidableEq

/-- The observable history of one caller's response channel: the values sent
on it and whether it has been closed. -/
structure PendingChan where
  sent : List DeliveredVal
  closed : Bool
deriving Repr, DecidableEq

/-- A channel as just created by the handler: nothing sent, not closed. -/
def freshChan : PendingChan := ⟨[], false⟩

/-- `responseChanMap`: correlation id to response channel. -/
abbrev Registry := List (String × PendingChan)

def lookupChan : Registry → String → Option PendingChan
  | [], _ => none
  | (k, c) :: r, id => if k = id then some c else lookupChan r id

/-- Send a value on the channel registered under `id` and close it
(`ch <- v; close(ch)`), leaving every other entry untouched. -/
def updateChan (reg : Registry) (id : String) (v : DeliveredVal) : Registry :=
  reg.map (fun kc => if kc.1 = id then (kc.1, ⟨kc.2.sent ++ [v], true⟩) else kc)

/-- A Go channel value: its capacity, buffered contents and closed flag. -/
structure GoChan (α : Type) where
  capacity : Nat
  buffer : List α
  closed : Bool
deriving Repr, DecidableEq

/-- `responseChan := make(chan interface{})` (http_client.go line 252): a
channel created with no capacity argument, i.e. capacity 0 (unbuffered). -/
def makeResponseChan : GoChan DeliveredVal := ⟨0, [], false⟩

/-- `make(chan ProxyRequest, 1)` (http_client.go line 274): the lane ingest
channel, capacity 1. -/
def makeLaneChan : GoChan String := ⟨1, [], false⟩

/-- A send on a Go channel completes without a waiting receiver iff the
buffer has free space below the capacity. -/
def sendCompletesWithoutReceiver (c : GoChan α) : Bool :=
  decide (c.buffer.length < c.capacity)

/-- `ProxyRequest` (model.go): the request envelope. -/
structure ProxyRequest where
  customID : String
  method : String
  endpoint : String
  bodyPayload : String
deriving Repr, DecidableEq

/-- `outstandingCustomIDs` (http_client.go 496-502): the set of correlation
ids owned by a batch, as the deduplicated key list of the Go map. -/
def outstandingCustomIDs (batch : List ProxyRequest) : List String :=
  (batch.map (·.customID)).dedup

/-- One parsed result line (`BatchRequestResponse`, model.go): the
correlation id, the optional per-line error, and the response body. -/
structure ResultLine where
  customID : String
  err : Option String
  bodyPayload : String
deriving Repr, DecidableEq

/-- `processFileContent` (http_client.go 465-494).  Each element of the
input is the parse result of one non-empty line (`none` = JSON parse
failure, logged and skipped).  For a parsed line whose correlation id is
registered, the body (or the per-line error document) is sent on the
channel and the channel is closed, and the id is removed from the
outstanding set; an unknown id is logged and dropped.  Sending on an
already-closed channel panics, killing the enclosing goroutine: modelled as
`none`. -/
def processFileContentM : List (Option ResultLine) → Registry → List String →
    Option (Registry × List String)
  | [], reg, out => some (reg, out)
  | none :: rest, reg, out => processFileContentM rest reg out
  | some l :: rest, reg, out =>
    match lookupChan reg l.customID with
    | none => processFileContentM rest reg out
    | some c =>
      if c.closed then none
      else
        processFileContentM rest
          (updateChan reg l.customID
            (match l.err with
             | some e => DeliveredVal.lineError e
             | none => DeliveredVal.body l.bodyPayload))
          (out.erase l.customID)

/-- `sendErrorResponse` (http_client.go 505-519): if a channel is registered
under `id`, send the synthesized error document and close the channel (a
closed channel panics: `none`); in every non-panicking path
`trackSynthesizedErrorResponse` runs, whether or not a channel was found. -/
def sendErrorResponseM (id msg : String) (reg : Registry) (stats : StatsState) :
    Option (Registry × StatsState) :=
  match lookupChan reg id with
  | some c =>
    if c.closed then none
    else some (updateChan reg id (.synthError msg),
      trackSynthesizedErrorResponse stats)
  | none => some (reg, trackSynthesizedErrorResponse stats)

/-- `sendErrorToAllRequests` (http_client.go 522-527) and the trailing
per-id loop of `processBatchResponse` (456-459), which differ only in the
message: call `sendErrorResponse` for every id in the list. -/
def sendErrorToAllRequestsM (msgf : String → String) :
    List String → Registry → StatsState → Option (Registry × StatsState)
  | [], reg, stats => some (reg, stats)
  | id :: rest, reg, stats =>
    match sendErrorResponseM id (msgf id) reg stats with
    | none => none
    | some (reg1, stats1) => sendErrorToAllRequestsM msgf rest reg1 stats1

/-! ## Batch executor (`processBatch`, `processBatchResponse`) -/

/-- The upstream calls the executor issues, in order. -/
inductive ExecStep where
  | uploadCall
  | createCall
  | deleteFileCall (fileID : String)
  | registerBatchCall (batchID : String)
  | spawnPollTask (batchID : String)
deriving Repr, DecidableEq

/-- `processBatch` (http_client.go 377-407), with the outcomes of
`uploadFile` and `createBatch` supplied as parameters.  Returns `none` on a
panic inside error synthesis; otherwise the updated registry and stats, the
upstream calls issued in order, and the batch id stored in `batchMap` if
any.  On upload failure: errors to all ids, no create call.  On create
failure: best-effort `deleteFile` on the uploaded file, then errors to all
ids, no registration.  On success: register the batch id and spawn
`processBatchResponse` (whose `trackBatchEnd` happens in that task). -/
def processBatchM (uploadRes : Except String String)
    (createRes : Except String String) (ids : List String)
    (reg : Registry) (stats : StatsState) :
    Option (Registry × StatsState × List ExecStep × Option String) :=
  let stats0 := trackBatchStart stats
  match uploadRes with
  | .error e =>
    match sendErrorToAllRequestsM (fun _ => "Failed to upload file: " ++ e)
        ids reg stats0 with
    | none => none
    | some (reg1, stats1) =>
      some (reg1, trackBatchEnd false 0 stats1, [.uploadCall], none)
  | .ok fileID =>
    match createRes with
    | .error e =>
      match sendErrorToAllRequestsM (fun _ => "Failed to create batch: " ++ e)
          ids reg stats0 with
      | none => none
      | some (reg1, stats1) =>
        some (reg1, trackBatchEnd false 0 stats1,
          [.uploadCall, .createCall, .deleteFileCall fileID], none)
    | .ok batchID =>
      some (reg, stats0,
        [.uploadCall, .createCall, .registerBatchCall batchID,
         .spawnPollTask batchID],
        some batchID)

/-- The upstream batch document fields used after polling. -/
structure BatchDoc where
  status : String
  outputFileID : Option String
  errorFileID : Option String
deriving Repr, DecidableEq

/-- The file loop of `processBatchResponse` (http_client.go 428-453): for
each present file id, a failed `readFile` is logged and skipped; otherwise
an asynchronous best-effort delete is spawned and the content goes through
`processFileContent`. -/
def processFilesM (readRes : String → Except String (List (Option ResultLine))) :
    List (Option String) → Registry → List String → List ExecStep →
    Option (Registry × List String × List ExecStep)
  | [], reg, out, tr => some (reg, out, tr)
  | none :: rest, reg, out, tr => processFilesM readRes rest reg out tr
  | some fid :: rest, reg, out, tr =>
    match readRes fid with
    | .error _ => processFilesM readRes rest reg out tr
    | .ok lines =>
      match processFileContentM lines reg out with
      | none => none
      | some (reg1, out1) =>
        processFilesM readRes rest reg1 out1 (tr ++ [.deleteFileCall fid])

/-- `processBatchResponse` (http_client.go 409-463), with the poll outcome
and the per-file read outcomes supplied as parameters.  On a poll error:
errors to all ids, failed batch.  Otherwise: process the output and error
files in that order, then synthesize an error for every id still
outstanding, then `trackBatchEnd(true, ...)`. -/
def processBatchResponseM (pollRes : Except String BatchDoc)
    (readRes : String → Except String (List (Option ResultLine)))
    (ids : List String) (reg : Registry) (stats : StatsState) :
    Option (Registry × StatsState × List ExecStep) :=
  match pollRes with
  | .error e =>
    match sendErrorToAllRequestsM (fun _ => "Batch processing failed: " ++ e)
        ids reg stats with
    | none => none
    | some (reg1, stats1) => some (reg1, trackBatchEnd false 0 stats1, [])
  | .ok doc =>
    match processFilesM readRes [doc.outputFileID, doc.errorFileID] reg ids [] with
    | none => none
    | some (reg1, out1, tr) =>
      match sendErrorToAllRequestsM
          (fun id => "No response received for request [" ++ id ++ "] in the batch")
          out1 reg1 stats with
      | none => none
      | some (reg2, stats2) => some (reg2, trackBatchEnd true 0 stats2, tr)

/-- The correlation ids of the successfully parsed lines of a file blob. -/
def lineIDs (lines : List (Option ResultLine)) : List String :=
  (lines.filterMap (fun x => x)).map (·.customID)

/-- The parsed-line ids a present-and-readable file contributes. -/
def fileContribIDs (readRes : String → Except String (List (Option ResultLine))) :
    Option String → List String
  | none => []
  | some fid =>
    match readRes fid with
    | .error _ => []
    | .ok lines => lineIDs lines

/-- All parsed-line ids contributed by a list of optional file ids. -/
def filesContribIDs (readRes : String → Except String (List (Option ResultLine)))
    (files : List (Option String)) : List String :=
  (files.map (fileContribIDs readRes)).flatten

/-! ## Shutdown interleaving model

A small-step model of one in-flight request racing the shutdown protocol.
The modelled execution fragment starts after the handler has stored its
fresh response channel in `responseChanMap` (http_client.go line 253) and
`reqToBeBatchedMap.LoadOrStore` (line 274) has returned the lane's existing
ingest channel: both are straight-line code with no shutdown check.  The
thread population of this execution is the handler, the lane's batching
worker, and the main goroutine about to broadcast shutdown; batch flushes
are modelled generously as immediately delivering a value (real or
synthesized) to every id in the flushed buffer. -/

/-- Handler positions: about to `ch <- req` (line 280); blocked at
`<-responseChan` (line 283); woken by a delivery. -/
inductive HandlerPc where
  | gotChan
  | waiting
  | woken
deriving Repr, DecidableEq

/-- Worker positions: parked at the `select` (line 315); returned after the
shutdown branch (line 372). -/
inductive WorkerPc where
  | selecting
  | terminated
deriving Repr, DecidableEq

/-- The shared state of the fragment: the shutdown broadcast flag, whether
the lane key is still in `reqToBeBatchedMap`, the lane channel's buffer
(capacity 1), the worker's local batch buffer, whether a value has been
sent on the handler's response channel, and both program counters. -/
structure SysState where
  shutdownClosed : Bool
  laneRegistered : Bool
  laneBuf : List String
  wbuf : List String
  delivered : Bool
  hpc : HandlerPc
  wpc : WorkerPc
deriving Repr, DecidableEq

/-- The correlation id of the in-flight request. -/
def theReqID : String := "req_42"

/-- All successor states: the main goroutine may close the shutdown channel
(line 185); the handler may complete `ch <- req` when the capacity-1 buffer
has room and then block on its response channel, or wake once a value is
delivered; the worker at its select may consume a buffered envelope, flush
a non-empty batch buffer (arrival-path or tick-path flush, delivering to
every owned id), or take the shutdown branch: flush, delete the lane key,
return. -/
def sysNext (s : SysState) : List SysState :=
  (if s.shutdownClosed then [] else [{ s with shutdownClosed := true }]) ++
  (match s.hpc with
   | .gotChan =>
     if s.laneBuf.length < 1 then
       [{ s with laneBuf := s.laneBuf ++ [theReqID], hpc := .waiting }]
     else []
   | .waiting => if s.delivered then [{ s with hpc := .woken }] else []
   | .woken => []) ++
  (match s.wpc with
   | .selecting =>
     (match s.laneBuf with
      | [] => []
      | e :: rest => [{ s with laneBuf := rest, wbuf := s.wbuf ++ [e] }]) ++
     (if s.wbuf.isEmpty then []
      else [{ s with
              wbuf := [],
              delivered := s.delivered || s.wbuf.contains theReqID }]) ++
     (if s.shutdownClosed then
        [{ s with
           wbuf := [],
           delivered := s.delivered || s.wbuf.contains theReqID,
           laneRegistered := false,
           wpc := .terminated }]
      else [])
   | .terminated => [])

/-- Start of the fragment: shutdown not yet broadcast, lane registered,
empty lane buffer, worker selecting, handler about to enroll. -/
def sysStart : SysState :=
  { shutdownClosed := false, laneRegistered := true, laneBuf := [],
    wbuf := [], delivered := false, hpc := .gotChan, wpc := .selecting }

/-- After the main goroutine closes the shutdown channel. -/
def sysAfterBroadcast : SysState := { sysStart with shutdownClosed := true }

/-- After the worker takes the shutdown branch with an empty buffer: the
lane key is deleted and the worker returns. -/
def sysAfterWorkerExit : SysState :=
  { sysAfterBroadcast with laneRegistered := false, wpc := .terminated }

/-- After the handler's `ch <- req` lands the envelope in the orphaned lane
channel and the handler blocks on its response channel. -/
def sysStuck : SysState :=
  { sysAfterWorkerExit with laneBuf := [theReqID], hpc := .waiting }

theorem bufInv_initWorker (p : WorkerParams) (t0 : Nat) :
    bufInv p (initWorker t0) := by
  refine ⟨by simp [initWorker], by simp [initWorker], Or.inr (by simp [initWorker])⟩

theorem goodBatch_of_bufInv (p : WorkerParams) (s : WorkerState)
    (hs : bufInv p s) (hne : s.batch ≠ []) :
    goodBatch p ⟨s.batch, s.batchBytes⟩ := by
  obtain ⟨h1, h2, h3⟩ := hs
  refine ⟨h1, h2, ?_⟩
  show (List.map (fun x => x.len) s.batch).sum ≤ p.maxBatchBytes ∨ s.batch.length = 1
  rcases h3 with h | h
  · exact Or.inl (h2 ▸ h)
  · right
    have : 1 ≤ s.batch.length := List.length_pos.mpr hne
    omega

theorem workerStep_inv (p : WorkerParams) (hp : 0 < p.maxBatchSize)
    (s : WorkerState) (e : WorkerEvent) (hs : bufInv p s) :
    bufInv p (workerStep p s e).1 ∧
      ∀ b ∈ (workerStep p s e).2, goodBatch p b := by
  obtain ⟨hlen, hsum, hbytes⟩ := hs
  cases e with
  | arrive l dt =>
    simp only [workerStep]
    split
    case isTrue hcond =>
      have hne : s.batch ≠ [] := by
        have h2 := ((Bool.and_eq_true _ _).mp hcond).2
        simpa [List.isEmpty_iff] using h2
      constructor
      · refine ⟨?_, ?_, Or.inr ?_⟩
        · simp only [flushBuffer, appendLine]
          simp
          omega
        · simp [flushBuffer, appendLine]
        · simp [flushBuffer, appendLine]
      · intro b hb
        have hbb : b = ⟨s.batch, s.batchBytes⟩ := by
          simpa [flushBuffer] using hb
        exact hbb ▸ goodBatch_of_bufInv p s ⟨hlen, hsum, hbytes⟩ hne
    case isFalse hcond =>
      refine ⟨?_, by intro b hb; simp at hb⟩
      by_cases hemp : s.batch = []
      · have hz : s.batchBytes = 0 := by simp [hsum, hemp]
        refine ⟨?_, ?_, Or.inr ?_⟩
        · simp [appendLine, hemp]
          omega
        · simp [appendLine, hemp, hz]
        · simp [appendLine, hemp]
      · have hfc : flushCond p { s with nowMs := s.nowMs + dt } l = false := by
          cases hfc' : flushCond p { s with nowMs := s.nowMs + dt } l
          · rfl
          · exact absurd (by simp [hfc', List.isEmpty_iff, hemp]) hcond
        simp only [flushCond, Bool.or_eq_false_iff, decide_eq_false_iff_not] at hfc
        have hlt : s.batch.length < p.maxBatchSize := by
          have := hfc.1.1
          omega
        have hby : s.batchBytes + l.len ≤ p.maxBatchBytes := by
          have := hfc.1.2
          omega
        refine ⟨?_, ?_, Or.inl ?_⟩ <;> simp [appendLine, hsum] <;> omega
  | tick =>
    simp only [workerStep]
    split
    case isTrue hcond =>
      have hne : s.batch ≠ [] := by
        have h1 := ((Bool.and_eq_true _ _).mp hcond).1
        simpa [List.isEmpty_iff] using h1
      constructor
      · refine ⟨?_, ?_, Or.inr ?_⟩ <;> simp [flushBuffer, hp]
      · intro b hb
        have hbb : b = ⟨s.batch, s.batchBytes⟩ := by
          simpa [flushBuffer] using hb
        exact hbb ▸ goodBatch_of_bufInv p s ⟨hlen, hsum, hbytes⟩ hne
    case isFalse hcond =>
      exact ⟨⟨hlen, hsum, by simpa using hbytes⟩, by intro b hb; simp at hb⟩
  | shutdown =>
    simp only [workerStep]
    split
    case isTrue hcond =>
      have hne : s.batch ≠ [] := by
        simpa [List.isEmpty_iff] using hcond
      refine ⟨⟨hlen, hsum, hbytes⟩, ?_⟩
      intro b hb
      have hbb : b = ⟨s.batch, s.batchBytes⟩ := by simpa using hb
      exact hbb ▸ goodBatch_of_bufInv p s ⟨hlen, hsum, hbytes⟩ hne
    case isFalse hcond =>
      exact ⟨⟨hlen, hsum, hbytes⟩, by intro b hb; simp at hb⟩

theorem runWorker_good (p : WorkerParams) (hp : 0 < p.maxBatchSize) :
    ∀ (events : List WorkerEvent) (s : WorkerState), bufInv p s →
      ∀ b ∈ (runWorker p s events).2, goodBatch p b := by
  intro events
  induction events with
  | nil => intro s _ b hb; simp [runWorker] at hb
  | cons e rest ih =>
    intro s hs b hb
    obtain ⟨hinv, hgood⟩ := workerStep_inv p hp s e hs
    cases e with
    | arrive l dt =>
      simp only [runWorker, List.mem_append] at hb
      rcases hb with hb | hb
      · exact hgood b hb
      · exact ih (workerStep p s (.arrive l dt)).1 hinv b hb
    | tick =>
      simp only [runWorker, List.mem_append] at hb
      rcases hb with hb | hb
      · exact hgood b hb
      · exact ih (workerStep p s .tick).1 hinv b hb
    | shutdown =>
      exact hgood b (by simpa [runWorker] using hb)

theorem updateChan_cons (k : String) (c0 : PendingChan) (rest : Registry)
    (id : String) (v : DeliveredVal) :
    updateChan ((k, c0) :: rest) id v
      = (if k = id then (k, ⟨c0.sent ++ [v], true⟩) else (k, c0))
          :: updateChan rest id v := by
  by_cases hk : k = id <;> simp [updateChan, hk]

theorem lookupChan_updateChan_self (reg : Registry) (id : String)
    (v : DeliveredVal) (c : PendingChan) (h : lookupChan reg id = some c) :
    lookupChan (updateChan reg id v) id = some ⟨c.sent ++ [v], true⟩ := by
  induction reg with
  | nil => simp [lookupChan] at h
  | cons kc rest ih =>
    obtain ⟨k, c0⟩ := kc
    rw [updateChan_cons]
    by_cases hk : k = id
    · rw [if_pos hk]
      simp [lookupChan, hk] at h
      simp [lookupChan, hk, h]
    · rw [if_neg hk]
      simp [lookupChan, hk] at h
      simp [lookupChan, hk]
      exact ih h

theorem lookupChan_updateChan_other (reg : Registry) (id id' : String)
    (v : DeliveredVal) (h : id' ≠ id) :
    lookupChan (updateChan reg id v) id' = lookupChan reg id' := by
  induction reg with
  | nil => rfl
  | cons kc rest ih =>
    obtain ⟨k, c0⟩ := kc
    rw [updateChan_cons]
    by_cases hk : k = id
    · rw [if_pos hk]
      have hk' : ¬ k = id' := by
        intro he
        exact h (by rw [← he, hk])
      simp [lookupChan, hk']
      exact ih
    · rw [if_neg hk]
      by_cases hk2 : k = id'
      · simp [lookupChan, hk2]
      · simp [lookupChan, hk2]
        exact ih

theorem sendErrorToAll_effect (msgf : String → String) :
    ∀ (ids : List String) (reg : Registry) (stats : StatsState),
      ids.Nodup →
      (∀ id ∈ ids, ∃ c, lookupChan reg id = some c ∧ c.closed = false) →
      ∃ reg1 stats1,
        sendErrorToAllRequestsM msgf ids reg stats = some (reg1, stats1) ∧
        (∀ id, id ∉ ids → lookupChan reg1 id = lookupChan reg id) ∧
        (∀ id ∈ ids, ∀ c, lookupChan reg id = some c →
          lookupChan reg1 id = some ⟨c.sent ++ [.synthError (msgf id)], true⟩) ∧
        stats1.synthesizedErrResponses
          = stats.synthesizedErrResponses + ids.length := by
  intro ids
  induction ids with
  | nil =>
    intro reg stats _ _
    exact ⟨reg, stats, rfl, fun _ _ => rfl, by simp, by simp⟩
  | cons id0 rest ih =>
    intro reg stats hnd hreg
    obtain ⟨c0, hc0, hopen⟩ := hreg id0 (by simp)
    have hstep : sendErrorResponseM id0 (msgf id0) reg stats
        = some (updateChan reg id0 (.synthError (msgf id0)),
            trackSynthesizedErrorResponse stats) := by
      simp [sendErrorResponseM, hc0, hopen]
    have hrest : ∀ id ∈ rest, ∃ c,
        lookupChan (updateChan reg id0 (.synthError (msgf id0))) id = some c ∧
          c.closed = false := by
      intro id hid
      have hne : id ≠ id0 := by
        intro he
        exact (List.nodup_cons.mp hnd).1 (he ▸ hid)
      obtain ⟨c, hc, ho⟩ := hreg id (by simp [hid])
      exact ⟨c, by rw [lookupChan_updateChan_other _ _ _ _ hne]; exact hc, ho⟩
    obtain ⟨reg2, stats2, heq, hout, hin, hcnt⟩ :=
      ih (updateChan reg id0 (.synthError (msgf id0)))
        (trackSynthesizedErrorResponse stats) (List.nodup_cons.mp hnd).2 hrest
    refine ⟨reg2, stats2, ?_, ?_, ?_, ?_⟩
    · simp [sendErrorToAllRequestsM, hstep, heq]
    · intro id hid
      have h1 : id ∉ rest := fun h => hid (by simp [h])
      have h2 : id ≠ id0 := fun he => hid (by simp [he])
      rw [hout id h1, lookupChan_updateChan_other _ _ _ _ h2]
    · intro id hid c hc
      rcases List.mem_cons.mp hid with he | hr
      · subst he
        have hup : lookupChan (updateChan reg id (.synthError (msgf id))) id
            = some ⟨c.sent ++ [.synthError (msgf id)], true⟩ :=
          lookupChan_updateChan_self reg id _ c hc
        have hnr : id ∉ rest := (List.nodup_cons.mp hnd).1
        rw [hout id hnr]
        exact hup
      · have hne : id ≠ id0 := by
          intro he
          exact (List.nodup_cons.mp hnd).1 (he ▸ hr)
        refine hin id hr c ?_
        rw [lookupChan_updateChan_other _ _ _ _ hne]
        exact hc
    · simp only [trackSynthesizedErrorResponse] at hcnt
      simp [hcnt, List.length_cons]
      omega

theorem lineIDs_cons_none (rest : List (Option ResultLine)) :
    lineIDs (none :: rest) = lineIDs rest := by
  simp [lineIDs]

theorem lineIDs_cons_some (l : ResultLine) (rest : List (Option ResultLine)) :
    lineIDs (some l :: rest) = l.customID :: lineIDs rest := by
  simp [lineIDs]

theorem customID_mem_lineIDs (l : ResultLine) :
    ∀ (lines : List (Option ResultLine)), some l ∈ lines →
      l.customID ∈ lineIDs lines := by
  intro lines hmem
  simp only [lineIDs, List.mem_map, List.mem_filterMap]
  exact ⟨l, ⟨some l, hmem, rfl⟩, rfl⟩

theorem processFileContent_effect :
    ∀ (lines : List (Option ResultLine)) (reg : Registry) (out : List String),
      (lineIDs lines).Nodup →
      (∀ l : ResultLine, some l ∈ lines → ∀ c,
        lookupChan reg l.customID = some c → c.closed = false) →
      out.Nodup →
      ∃ reg1 out1, processFileContentM lines reg out = some (reg1, out1) ∧
        out1.Nodup ∧
        (∀ id, id ∉ lineIDs lines → lookupChan reg1 id = lookupChan reg id) ∧
        (∀ id ∈ out1, id ∈ out) ∧
        (∀ id ∈ out1, lookupChan reg1 id = lookupChan reg id) ∧
        (∀ id ∈ out, id ∉ out1 → ∀ c, lookupChan reg id = some c →
          ∃ v, lookupChan reg1 id = some ⟨c.sent ++ [v], true⟩) ∧
        (∀ id ∈ out, id ∉ out1 → id ∈ lineIDs lines) := by
  intro lines
  induction lines with
  | nil =>
    intro reg out _ _ h3
    exact ⟨reg, out, rfl, h3, fun _ _ => rfl, fun _ h => h, fun _ _ => rfl,
      fun id hin hout => absurd hin hout, fun id hin hout => absurd hin hout⟩
  | cons o rest ih =>
    cases o with
    | none =>
      intro reg out h1 h2 h3
      rw [lineIDs_cons_none] at h1
      obtain ⟨reg1, out1, heq, hnod, hunch, hsub, hkeep, hdel, hdm⟩ :=
        ih reg out h1 (fun l' hl' => h2 l' (by simp [hl'])) h3
      refine ⟨reg1, out1, ?_, hnod, ?_, hsub, hkeep, hdel, ?_⟩
      · simpa [processFileContentM] using heq
      · intro id hid
        rw [lineIDs_cons_none] at hid
        exact hunch id hid
      · intro id hin hout
        rw [lineIDs_cons_none]
        exact hdm id hin hout
    | some l =>
      intro reg out h1 h2 h3
      rw [lineIDs_cons_some] at h1
      have hnotin : l.customID ∉ lineIDs rest := (List.nodup_cons.mp h1).1
      have hndrest : (lineIDs rest).Nodup := (List.nodup_cons.mp h1).2
      cases hc : lookupChan reg l.customID with
      | none =>
        obtain ⟨reg1, out1, heq, hnod, hunch, hsub, hkeep, hdel, hdm⟩ :=
          ih reg out hndrest (fun l' hl' => h2 l' (by simp [hl'])) h3
        refine ⟨reg1, out1, ?_, hnod, ?_, hsub, hkeep, hdel, ?_⟩
        · simpa [processFileContentM, hc] using heq
        · intro id hid
          rw [lineIDs_cons_some] at hid
          exact hunch id (fun hm => hid (List.mem_cons_of_mem _ hm))
        · intro id hin hout
          rw [lineIDs_cons_some]
          exact List.mem_cons_of_mem _ (hdm id hin hout)
      | some c =>
        have hopen : c.closed = false := h2 l (by simp) c hc
        have hstep : processFileContentM (some l :: rest) reg out
            = processFileContentM rest
                (updateChan reg l.customID
                  (match l.err with
                   | some e => DeliveredVal.lineError e
                   | none => DeliveredVal.body l.bodyPayload))
                (out.erase l.customID) := by
          simp [processFileContentM, hc, hopen]
        have h2' : ∀ l' : ResultLine, some l' ∈ rest → ∀ c',
            lookupChan
              (updateChan reg l.customID
                (match l.err with
                 | some e => DeliveredVal.lineError e
                 | none => DeliveredVal.body l.bodyPayload))
              l'.customID = some c' → c'.closed = false := by
          intro l' hl' c' hc'
          by_cases he : l'.customID = l.customID
          · exact absurd (he ▸ customID_mem_lineIDs l' rest hl') hnotin
          · rw [lookupChan_updateChan_other _ _ _ _ he] at hc'
            exact h2 l' (by simp [hl']) c' hc'
        obtain ⟨reg1, out1, heq, hnod, hunch, hsub, hkeep, hdel, hdm⟩ :=
          ih (updateChan reg l.customID
                (match l.err with
                 | some e => DeliveredVal.lineError e
                 | none => DeliveredVal.body l.bodyPayload))
            (out.erase l.customID) hndrest h2' (h3.erase _)
        refine ⟨reg1, out1, by rw [hstep, heq], hnod, ?_, ?_, ?_, ?_, ?_⟩
        · intro id hid
          rw [lineIDs_cons_some] at hid
          have hne : id ≠ l.customID := fun he => hid (he ▸ List.mem_cons_self _ _)
          have hnr : id ∉ lineIDs rest := fun hm => hid (List.mem_cons_of_mem _ hm)
          rw [hunch id hnr, lookupChan_updateChan_other _ _ _ _ hne]
        · intro id hid
          exact List.mem_of_mem_erase (hsub id hid)
        · intro id hid
          have hin_e : id ∈ out.erase l.customID := hsub id hid
          have hne : id ≠ l.customID := by
            intro he
            subst he
            exact (List.Nodup.not_mem_erase h3) hin_e
          rw [hkeep id hid, lookupChan_updateChan_other _ _ _ _ hne]
        · intro id hin hout c2 hc2
          by_cases he : id = l.customID
          · subst he
            refine ⟨(match l.err with
                     | some e => DeliveredVal.lineError e
                     | none => DeliveredVal.body l.bodyPayload), ?_⟩
            have hup := lookupChan_updateChan_self reg l.customID
              (match l.err with
               | some e => DeliveredVal.lineError e
               | none => DeliveredVal.body l.bodyPayload) c2 hc2
            rw [hunch l.customID hnotin]
            exact hup
          · have hin_e : id ∈ out.erase l.customID :=
              (List.mem_erase_of_ne he).mpr hin
            have hc2' : lookupChan
                (updateChan reg l.customID
                  (match l.err with
                   | some e => DeliveredVal.lineError e
                   | none => DeliveredVal.body l.bodyPayload)) id = some c2 := by
              rw [lookupChan_updateChan_other _ _ _ _ he]
              exact hc2
            exact hdel id hin_e hout c2 hc2'
        · intro id hin hout
          rw [lineIDs_cons_some]
          by_cases he : id = l.customID
          · exact he ▸ List.mem_cons_self _ _
          · have hin_e : id ∈ out.erase l.customID :=
              (List.mem_erase_of_ne he).mpr hin
            exact List.mem_cons_of_mem _ (hdm id hin_e hout)

theorem filesContribIDs_cons
    (readRes : String → Except String (List (Option ResultLine)))
    (f : Option String) (rest : List (Option String)) :
    filesContribIDs readRes (f :: rest)
      = fileContribIDs readRes f ++ filesContribIDs readRes rest := by
  simp [filesContribIDs]

theorem processFiles_effect
    (readRes : String → Except String (List (Option ResultLine))) :
    ∀ (files : List (Option String)) (reg : Registry) (out : List String)
      (tr : List ExecStep),
      (filesContribIDs readRes files).Nodup →
      (∀ id ∈ filesContribIDs readRes files, ∀ c,
        lookupChan reg id = some c → c.closed = false) →
      out.Nodup →
      ∃ reg1 out1 tr1,
        processFilesM readRes files reg out tr = some (reg1, out1, tr1) ∧
        out1.Nodup ∧
        (∀ id, id ∉ filesContribIDs readRes files →
          lookupChan reg1 id = lookupChan reg id) ∧
        (∀ id ∈ out1, id ∈ out) ∧
        (∀ id ∈ out1, lookupChan reg1 id = lookupChan reg id) ∧
        (∀ id ∈ out, id ∉ out1 → ∀ c, lookupChan reg id = some c →
          ∃ v, lookupChan reg1 id = some ⟨c.sent ++ [v], true⟩) ∧
        (∀ id ∈ out, id ∉ out1 → id ∈ filesContribIDs readRes files) := by
  intro files
  induction files with
  | nil =>
    intro reg out tr _ _ h3
    exact ⟨reg, out, tr, rfl, h3, fun _ _ => rfl, fun _ h => h, fun _ _ => rfl,
      fun id hin hout => absurd hin hout, fun id hin hout => absurd hin hout⟩
  | cons f rest ih =>
    cases f with
    | none =>
      intro reg out tr h1 h2 h3
      have hskip : fileContribIDs readRes none = [] := rfl
      rw [filesContribIDs_cons, hskip, List.nil_append] at h1 h2
      obtain ⟨reg1, out1, tr1, heq, hnod, hunch, hsub, hkeep, hdel, hdm⟩ :=
        ih reg out tr h1 h2 h3
      refine ⟨reg1, out1, tr1, heq, hnod, ?_, hsub, hkeep, hdel, ?_⟩
      · intro id hid
        rw [filesContribIDs_cons, hskip, List.nil_append] at hid
        exact hunch id hid
      · intro id hin hout
        rw [filesContribIDs_cons, hskip, List.nil_append]
        exact hdm id hin hout
    | some fid =>
      intro reg out tr h1 h2 h3
      cases hrd : readRes fid with
      | error e =>
        have hskip : fileContribIDs readRes (some fid) = [] := by
          simp [fileContribIDs, hrd]
        rw [filesContribIDs_cons, hskip, List.nil_append] at h1 h2
        obtain ⟨reg1, out1, tr1, heq, hnod, hunch, hsub, hkeep, hdel, hdm⟩ :=
          ih reg out tr h1 h2 h3
        refine ⟨reg1, out1, tr1, ?_, hnod, ?_, hsub, hkeep, hdel, ?_⟩
        · simpa [processFilesM, hrd] using heq
        · intro id hid
          rw [filesContribIDs_cons, hskip, List.nil_append] at hid
          exact hunch id hid
        · intro id hin hout
          rw [filesContribIDs_cons, hskip, List.nil_append]
          exact hdm id hin hout
      | ok lines =>
        have hfc : fileContribIDs readRes (some fid) = lineIDs lines := by
          simp [fileContribIDs, hrd]
        rw [filesContribIDs_cons, hfc] at h1 h2
        have hnd1 : (lineIDs lines).Nodup := h1.of_append_left
        have hndrest : (filesContribIDs readRes rest).Nodup := h1.of_append_right
        have hdisj : ∀ id ∈ lineIDs lines,
            id ∉ filesContribIDs readRes rest := by
          intro id hidl hidr
          exact (List.disjoint_of_nodup_append h1) hidl hidr
        obtain ⟨regA, outA, heqA, hnodA, hunchA, hsubA, hkeepA, hdelA, hdmA⟩ :=
          processFileContent_effect lines reg out hnd1
            (fun l hl c hc =>
              h2 l.customID (List.mem_append_left _ (customID_mem_lineIDs l lines hl)) c hc)
            h3
        have hopenrest : ∀ id ∈ filesContribIDs readRes rest, ∀ c,
            lookupChan regA id = some c → c.closed = false := by
          intro id hid c hc
          have hnl : id ∉ lineIDs lines := fun hl => hdisj id hl hid
          rw [hunchA id hnl] at hc
          exact h2 id (List.mem_append_right _ hid) c hc
        obtain ⟨reg2, out2, tr2, heqB, hnodB, hunchB, hsubB, hkeepB, hdelB, hdmB⟩ :=
          ih regA outA (tr ++ [.deleteFileCall fid]) hndrest hopenrest hnodA
        refine ⟨reg2, out2, tr2, ?_, hnodB, ?_, ?_, ?_, ?_, ?_⟩
        · simp [processFilesM, hrd, heqA, heqB]
        · intro id hid
          rw [filesContribIDs_cons, hfc, List.mem_append, not_or] at hid
          rw [hunchB id hid.2, hunchA id hid.1]
        · intro id hid
          exact hsubA id (hsubB id hid)
        · intro id hid
          rw [hkeepB id hid, hkeepA id (hsubB id hid)]
        · intro id hin hout c hc
          by_cases hA : id ∈ outA
          · have hcA : lookupChan regA id = some c := by
              rw [hkeepA id hA]
              exact hc
            exact hdelB id hA hout c hcA
          · obtain ⟨v, hv⟩ := hdelA id hin hA c hc
            have hnl : id ∉ filesContribIDs readRes rest :=
              fun hr => hdisj id (hdmA id hin hA) hr
            exact ⟨v, by rw [hunchB id hnl]; exact hv⟩
        · intro id hin hout
          rw [filesContribIDs_cons, hfc, List.mem_append]
          by_cases hA : id ∈ outA
          · exact Or.inr (hdmB id hA hout)
          · exact Or.inl (hdmA id hin hA)

theorem sleepRuns_shift :
    ∀ (l : List PollAction) (n : Nat),
      sleepRuns l n
        = match sleepRuns l 0 with
          | [] => []
          | a :: r => (a + n) :: r := by
  intro l
  induction l with
  | nil => intro n; rfl
  | cons act r ih =>
    intro n
    cases act with
    | sleep =>
      have h1 := ih (n + 1)
      have h2 := ih 1
      simp only [sleepRuns] at h1 h2 ⊢
      cases hr : sleepRuns r 0 with
      | nil =>
        rw [hr] at h1 h2
        simp at h1 h2
        rw [h1, h2]
      | cons a t =>
        rw [hr] at h1 h2
        simp at h1 h2
        rw [h1, h2]
        simp
        omega
    | fetch o =>
      simp [sleepRuns]

theorem pollBatchStatus_structure :
    ∀ (pre : List String), (∀ st ∈ pre, isTerminalStatus st = false) →
      ∀ (last : FetchOutcome),
        (match last with
         | .ok st => isTerminalStatus st = true
         | .fail _ => True) →
        pollBatchStatus (pre.map FetchOutcome.ok ++ [last])
          = (some (pollResultOf last), pollTranscript pre last) := by
  intro pre
  induction pre with
  | nil =>
    intro _ last hlast
    cases last with
    | ok st =>
      simp only [] at hlast
      simp [pollBatchStatus, hlast, pollTranscript, pollResultOf]
    | fail e =>
      simp [pollBatchStatus, pollTranscript, pollResultOf]
  | cons st pre' ih =>
    intro hpre last hlast
    have hst : isTerminalStatus st = false := hpre st (by simp)
    have ihr := ih (fun s hs => hpre s (by simp [hs])) last hlast
    simp only [List.map_cons, List.cons_append, pollBatchStatus, hst,
      Bool.false_eq_true, if_false, pollTranscript, List.flatten_cons]
    rw [show (List.map FetchOutcome.ok pre').append [last]
        = List.map FetchOutcome.ok pre' ++ [last] from rfl, ihr]
    simp [pollTranscript]

theorem sleepsBeforeEachFetch_pollTranscript :
    ∀ (pre : List String) (last : FetchOutcome),
      sleepsBeforeEachFetch (pollTranscript pre last)
        = 1 :: List.replicate pre.length 2 := by
  intro pre
  induction pre with
  | nil => intro last; rfl
  | cons st pre' ih =>
    intro last
    have hexp : pollTranscript (st :: pre') last
        = PollAction.sleep :: PollAction.fetch (.ok st) :: PollAction.sleep
            :: pollTranscript pre' last := by
      simp [pollTranscript]
    have ihl : sleepRuns (pollTranscript pre' last) 0
        = 1 :: List.replicate pre'.length 2 := ih last
    have hstep : sleepsBeforeEachFetch (PollAction.sleep
          :: PollAction.fetch (.ok st) :: PollAction.sleep
          :: pollTranscript pre' last)
        = 1 :: sleepRuns (pollTranscript pre' last) 1 := rfl
    rw [hexp, hstep, sleepRuns_shift (pollTranscript pre' last) 1, ihl]
    simp [List.replicate_succ]

theorem applyStatEvents_requestsFailed :
    ∀ (events : List StatEvent) (s : StatsState), s.requestsFailed = 0 →
      (events.foldl applyStatEvent s).requestsFailed = 0 := by
  intro events
  induction events with
  | nil => intro s hs; exact hs
  | cons e rest ih =>
    intro s hs
    refine ih (applyStatEvent s e) ?_
    cases e with
    | reqStart => simpa [applyStatEvent, trackRequestStart] using hs
    | reqEnd d => simpa [applyStatEvent, trackRequestEnd] using hs
    | batchStart => simpa [applyStatEvent, trackBatchStart] using hs
    | batchEnd b d =>
      cases b <;> simpa [applyStatEvent, trackBatchEnd] using hs
    | synthErr =>
      simpa [applyStatEvent, trackSynthesizedErrorResponse] using hs

/-! ## Claims -/

/-- C2: every batch emitted by a batching worker contains at most
`maxBatchSize` documents, and the byte length of its line-delimited payload
is at most `maxBatchBytes` (`maxBatchMb * 1024 * 1024`), except that a
batch may exceed the byte budget when it is a single document whose
serialized line alone exceeds it.  Stated over every event sequence of a
worker started with a positive configured `maxBatchSize` (flag default
1000). -/
theorem claim_C2 (p : WorkerParams) (hp : 0 < p.maxBatchSize) (t0 : Nat)
    (events : List WorkerEvent) (b : EmittedBatch)
    (hb : b ∈ (runWorker p (initWorker t0) events).2) :
    b.lines.length ≤ p.maxBatchSize ∧
      ((b.lines.map (·.len)).sum ≤ p.maxBatchBytes ∨ b.lines.length = 1) := by
  have h := runWorker_good p hp events (initWorker t0) (bufInv_initWorker p t0) b hb
  exact ⟨h.1, h.2.2⟩

/-- C2 witness: the batch flushed at shutdown after one small arrival
satisfies both budgets under the default configuration. -/
theorem claim_C2_witness :
    (⟨[⟨"req_7", 10⟩], 10⟩ : EmittedBatch).lines.length
        ≤ defaultParams.maxBatchSize ∧
      (((⟨[⟨"req_7", 10⟩], 10⟩ : EmittedBatch).lines.map (·.len)).sum
          ≤ defaultParams.maxBatchBytes ∨
        (⟨[⟨"req_7", 10⟩], 10⟩ : EmittedBatch).lines.length = 1) :=
  claim_C2 defaultParams (by decide) 0
    [.arrive ⟨"req_7", 10⟩ 50, .shutdown] ⟨[⟨"req_7", 10⟩], 10⟩ (by decide)

/-- C5 counterexample: a legal worker execution in which envelopes arrive
every 100 ms, always winning the select before the re-armed 200 ms
`time.After` timer fires, so the timeout case never runs: after 50 arrivals
nothing has been emitted and the buffer (non-empty since the first arrival
at 100 ms) has an age of 5000 ms, exceeding maxHold + one tick interval
(4000 + 200 ms).  This refutes both the steady-cadence tick and the
freshness bound of the claim. -/
theorem claim_C5_counterexample :
    (((List.range 50).map
        (fun i => WorkerEvent.arrive ⟨"req_" ++ Nat.repr i, 100⟩ 100)).all
      (legalEvent defaultParams)) = true ∧
    (workerStep defaultParams (initWorker 0)
        (.arrive ⟨"req_0", 100⟩ 100)).1.batch ≠ [] ∧
    (runWorker defaultParams (initWorker 0)
        ((List.range 50).map
          (fun i => WorkerEvent.arrive ⟨"req_" ++ Nat.repr i, 100⟩ 100))).2
      = [] ∧
    (runWorker defaultParams (initWorker 0)
        ((List.range 50).map
          (fun i => WorkerEvent.arrive ⟨"req_" ++ Nat.repr i, 100⟩ 100))).1.batch
      ≠ [] ∧
    (runWorker defaultParams (initWorker 0)
        ((List.range 50).map
          (fun i => WorkerEvent.arrive ⟨"req_" ++ Nat.repr i, 100⟩ 100))).1.nowMs
        - 100
      ≥ defaultParams.maxHoldMs + defaultParams.tickMs := by
  refine ⟨by decide, by decide, by decide, by decide, by decide⟩

/-- C5 amended: the worker's `time.After` timeout is re-created on every
loop iteration, so it fires only after a full tick interval with no
envelope arrival; when it does fire while the buffer is non-empty and the
buffer age is at least `maxHold` (or the count reached `maxBatchSize`), the
buffer is flushed.  A lane receiving envelopes at intervals shorter than
the tick interval is flushed only by the count/byte conditions on the
arrival path or by shutdown, and can hold a non-empty buffer past
`maxHold` plus one tick interval (see the counterexample). -/
theorem claim_C5_amended (p : WorkerParams) (s : WorkerState)
    (hne : s.batch ≠ [])
    (hcond : s.nowMs + p.tickMs - s.batchStartMs ≥ p.maxHoldMs ∨
      s.batch.length ≥ p.maxBatchSize) :
    (workerStep p s .tick).2 = [⟨s.batch, s.batchBytes⟩] := by
  have hb : (!s.batch.isEmpty) = true := by simp [List.isEmpty_iff, hne]
  have hc : (!s.batch.isEmpty &&
      (decide (s.nowMs + p.tickMs - s.batchStartMs ≥ p.maxHoldMs) ||
       decide (s.batch.length ≥ p.maxBatchSize))) = true := by
    rcases hcond with h | h <;> simp [hb, h]
  simp [workerStep, hc, flushBuffer]

/-- C5 witness: a tick arriving when the buffer is 4300 ms old flushes it
under the default configuration. -/
theorem claim_C5_witness :
    (workerStep defaultParams ⟨[⟨"req_1", 5⟩], 5, 4300, 0⟩ .tick).2
      = [⟨[⟨"req_1", 5⟩], 5⟩] :=
  claim_C5_amended defaultParams ⟨[⟨"req_1", 5⟩], 5, 4300, 0⟩ (by decide)
    (Or.inl (by decide))

/-- C3 counterexample: for the fetch outcomes in_progress then completed,
the poller's transcript is sleep, fetch, sleep, sleep, fetch: two sleeps of
`SleepDuration` separate the non-terminal fetch from the next one (the
`default` arm sleeps and the loop top sleeps again), refuting the claimed
cadence of exactly one sleep between consecutive fetches. -/
theorem claim_C3_counterexample :
    (pollBatchStatus [.ok "in_progress", .ok "completed"]).2
      = [.sleep, .fetch (.ok "in_progress"), .sleep, .sleep,
         .fetch (.ok "completed")] ∧
    sleepsBeforeEachFetch
        (pollBatchStatus [.ok "in_progress", .ok "completed"]).2
      = [1, 2] ∧
    ((sleepsBeforeEachFetch
        (pollBatchStatus [.ok "in_progress", .ok "completed"]).2).all
      (fun n => n == 1)) = false ∧
    (pollBatchStatus [.ok "in_progress", .ok "completed"]).1
      = some (.done "completed") := by
  refine ⟨by decide, by decide, by decide, by decide⟩

/-- C3 amended: the poller sleeps exactly once (`SleepDuration`) before its
first fetch, and exactly twice between consecutive fetches when the earlier
fetch reported a non-terminal status — once in the non-terminal `default`
arm and once more at the loop top — i.e. the steady non-terminal cadence is
2 by SleepDuration (10 s), not one SleepDuration; it still returns as soon
as a fetch reports a terminal status (completed, failed, expired,
cancelled) or a fetch fails. -/
theorem claim_C3_amended (pre : List String)
    (hpre : ∀ st ∈ pre, isTerminalStatus st = false) (last : FetchOutcome)
    (hlast : match last with
             | .ok st => isTerminalStatus st = true
             | .fail _ => True) :
    pollBatchStatus (pre.map FetchOutcome.ok ++ [last])
      = (some (pollResultOf last), pollTranscript pre last) ∧
    sleepsBeforeEachFetch (pollTranscript pre last)
      = 1 :: List.replicate pre.length 2 :=
  ⟨pollBatchStatus_structure pre hpre last hlast,
   sleepsBeforeEachFetch_pollTranscript pre last⟩

/-- C3 witness: one non-terminal fetch followed by a terminal one. -/
theorem claim_C3_witness :
    pollBatchStatus [.ok "in_progress", .ok "completed"]
      = (some (.done "completed"),
         pollTranscript ["in_progress"] (.ok "completed")) ∧
    sleepsBeforeEachFetch (pollTranscript ["in_progress"] (.ok "completed"))
      = 1 :: List.replicate 1 2 :=
  claim_C3_amended ["in_progress"] (by decide) (.ok "completed") (by decide)

/-- C9 counterexample: the correlation id is a function of the pseudorandom
draw alone, reduced modulo 1000000 (a range below 2^24), so two distinct
draws — and hence two distinct overlapping requests — can receive the same
id. -/
theorem claim_C9_counterexample :
    genCustomID 0 = genCustomID 1000000 ∧ (0 : Nat) ≠ 1000000 :=
  ⟨rfl, by decide⟩

/-- C9 amended: every generated id has the format req_<decimal> with the
decimal drawn from [0, 1000000) — a range of fewer than 24 bits — and the
id depends only on the draw modulo 1000000, so ids of two overlapping
requests are distinct only if their draws differ modulo 1000000; the
generator itself guarantees no distinctness. -/
theorem claim_C9_amended :
    (∀ r : Nat, ∃ d : Nat, d < 1000000 ∧
      genCustomID r = "req_" ++ Nat.repr d) ∧
    (∀ r1 r2 : Nat, r1 % 1000000 = r2 % 1000000 →
      genCustomID r1 = genCustomID r2) := by
  constructor
  · intro r
    exact ⟨r % 1000000, Nat.mod_lt r (by norm_num), rfl⟩
  · intro r1 r2 h
    simp [genCustomID, randIntn, h]

/-- C9 witness: the format holds at draw 123, and draws 0 and 1000000
collide. -/
theorem claim_C9_witness :
    (∃ d : Nat, d < 1000000 ∧ genCustomID 123 = "req_" ++ Nat.repr d) ∧
    genCustomID 0 = genCustomID 1000000 :=
  ⟨claim_C9_amended.1 123, claim_C9_amended.2 0 1000000 (by decide)⟩

/-- C10: the requests.failed statistic is never incremented: the only
`trackRequestEnd` call in the program passes success = true (even when the
delivered value was a synthesized error document), so over every sequence
of statistics events the program can perform, `getStats` reports
requests.failed = 0. -/
theorem claim_C10 (events : List StatEvent) :
    (getStatsCounters (events.foldl applyStatEvent initStats)).requestsFailed
      = 0 := by
  have h := applyStatEvents_requestsFailed events initStats rfl
  simpa [getStatsCounters] using h

/-- C8 counterexample: `sendErrorResponse` runs
`trackSynthesizedErrorResponse` unconditionally, after the channel lookup:
on an empty registry the counter goes from 0 to 1 while the registry is
untouched and no value is delivered anywhere, so an increment need not
correspond to a delivered synthesized error document. -/
theorem claim_C8_counterexample :
    sendErrorResponseM "req_9" "boom" [] initStats
      = some ([], trackSynthesizedErrorResponse initStats) ∧
    (trackSynthesizedErrorResponse initStats).synthesizedErrResponses = 1 :=
  ⟨rfl, rfl⟩

/-- C8 amended: the counter increments exactly once per non-panicking
`sendErrorResponse` invocation.  When the id is registered with an open
channel this coincides with exactly one synthesized error document of shape
error/message delivered on that channel before it is closed; an invocation
for an absent id also increments the counter without any delivery, so
increments can exceed deliveries. -/
theorem claim_C8_amended (reg : Registry) (stats : StatsState)
    (id msg : String) :
    (lookupChan reg id = none →
      sendErrorResponseM id msg reg stats
        = some (reg, trackSynthesizedErrorResponse stats)) ∧
    (∀ c, lookupChan reg id = some c → c.closed = false →
      sendErrorResponseM id msg reg stats
        = some (updateChan reg id (.synthError msg),
            trackSynthesizedErrorResponse stats) ∧
      lookupChan (updateChan reg id (.synthError msg)) id
        = some ⟨c.sent ++ [.synthError msg], true⟩) ∧
    (∀ res, sendErrorResponseM id msg reg stats = some res →
      res.2.synthesizedErrResponses = stats.synthesizedErrResponses + 1) := by
  refine ⟨?_, ?_, ?_⟩
  · intro h
    simp [sendErrorResponseM, h]
  · intro c hc hopen
    exact ⟨by simp [sendErrorResponseM, hc, hopen],
      lookupChan_updateChan_self reg id _ c hc⟩
  · intro res hres
    simp only [sendErrorResponseM] at hres
    cases hc : lookupChan reg id with
    | none =>
      rw [hc] at hres
      simp at hres
      rw [← hres]
      simp [trackSynthesizedErrorResponse]
    | some c =>
      rw [hc] at hres
      by_cases hcl : c.closed
      · simp [hcl] at hres
      · simp [hcl] at hres
        rw [← hres]
        simp [trackSynthesizedErrorResponse]

/-- C8 witness: delivering to a registered open channel increments the
counter once and sends exactly one synthesized error before closing. -/
theorem claim_C8_witness :
    sendErrorResponseM "req_1" "m" [("req_1", freshChan)] initStats
      = some (updateChan [("req_1", freshChan)] "req_1" (.synthError "m"),
          trackSynthesizedErrorResponse initStats) ∧
    lookupChan (updateChan [("req_1", freshChan)] "req_1" (.synthError "m"))
        "req_1"
      = some ⟨[.synthError "m"], true⟩ :=
  (claim_C8_amended [("req_1", freshChan)] initStats "req_1" "m").2.1
    freshChan rfl rfl

/-- C7: if the upload step fails, every correlation id in the batch's owned
set is delivered a synthesized error document and the executor ends having
issued only the upload call — no create call and no registered batch id; if
the create step fails, the executor issues a best-effort delete of the
uploaded file, delivers a synthesized error to every id, and registers no
batch id (the transcript equalities pin down exactly which upstream calls
happen). -/
theorem claim_C7 (ids : List String) (reg : Registry) (stats : StatsState)
    (hids : ids.Nodup)
    (hreg : ∀ id ∈ ids, ∃ c, lookupChan reg id = some c ∧ c.closed = false) :
    (∀ e cr, ∃ reg1 stats1,
      processBatchM (.error e) cr ids reg stats
        = some (reg1, stats1, [.uploadCall], none) ∧
      ∀ id ∈ ids, ∀ c, lookupChan reg id = some c →
        lookupChan reg1 id
          = some ⟨c.sent ++ [.synthError ("Failed to upload file: " ++ e)],
              true⟩) ∧
    (∀ fid e, ∃ reg1 stats1,
      processBatchM (.ok fid) (.error e) ids reg stats
        = some (reg1, stats1,
            [.uploadCall, .createCall, .deleteFileCall fid], none) ∧
      ∀ id ∈ ids, ∀ c, lookupChan reg id = some c →
        lookupChan reg1 id
          = some ⟨c.sent ++ [.synthError ("Failed to create batch: " ++ e)],
              true⟩) := by
  constructor
  · intro e cr
    obtain ⟨reg1, stats1, heq, _, hin, _⟩ :=
      sendErrorToAll_effect (fun _ => "Failed to upload file: " ++ e) ids reg
        (trackBatchStart stats) hids hreg
    exact ⟨reg1, trackBatchEnd false 0 stats1,
      by simp [processBatchM, heq], hin⟩
  · intro fid e
    obtain ⟨reg1, stats1, heq, _, hin, _⟩ :=
      sendErrorToAll_effect (fun _ => "Failed to create batch: " ++ e) ids reg
        (trackBatchStart stats) hids hreg
    exact ⟨reg1, trackBatchEnd false 0 stats1,
      by simp [processBatchM, heq], hin⟩

/-- C7 witness: a one-request batch whose upload fails. -/
theorem claim_C7_witness :
    ∃ reg1 stats1,
      processBatchM (.error "nope") (.ok "batch-1") ["req_1"]
          [("req_1", freshChan)] initStats
        = some (reg1, stats1, [.uploadCall], none) ∧
      ∀ id ∈ ["req_1"], ∀ c,
        lookupChan [("req_1", freshChan)] id = some c →
        lookupChan reg1 id
          = some ⟨c.sent ++ [.synthError ("Failed to upload file: " ++ "nope")],
              true⟩ :=
  (claim_C7 ["req_1"] [("req_1", freshChan)] initStats (by decide)
      (fun id hid => by
        simp at hid
        subst hid
        exact ⟨freshChan, rfl, rfl⟩)).1 "nope" (.ok "batch-1")

/-- C4 counterexample: the handler creates each pending entry's delivery
channel with `make(chan interface{})` — no capacity argument, i.e. capacity
0, not 1 — so a send into it cannot complete without a waiting receiver
(it is a blocking rendezvous, not a non-blocking buffered send). -/
theorem claim_C4_counterexample :
    makeResponseChan.capacity = 0 ∧ makeResponseChan.capacity ≠ 1 ∧
    sendCompletesWithoutReceiver makeResponseChan = false :=
  ⟨rfl, by decide, rfl⟩

/-- C4 amended: every pending entry's delivery channel is unbuffered
(capacity 0), so delivery is a blocking rendezvous send followed by closing
the channel; delivery to a registered open correlation id sends exactly one
value and closes the channel, and delivery to an absent correlation id is a
no-op. -/
theorem claim_C4_amended (reg : Registry) (out : List String)
    (l : ResultLine) :
    makeResponseChan.capacity = 0 ∧
    (lookupChan reg l.customID = none →
      processFileContentM [some l] reg out = some (reg, out)) ∧
    (∀ c, lookupChan reg l.customID = some c → c.closed = false →
      processFileContentM [some l] reg out
        = some (updateChan reg l.customID
            (match l.err with
             | some e => DeliveredVal.lineError e
             | none => DeliveredVal.body l.bodyPayload),
            out.erase l.customID) ∧
      lookupChan (updateChan reg l.customID
          (match l.err with
           | some e => DeliveredVal.lineError e
           | none => DeliveredVal.body l.bodyPayload)) l.customID
        = some ⟨c.sent ++ [match l.err with
                           | some e => DeliveredVal.lineError e
                           | none => DeliveredVal.body l.bodyPayload],
            true⟩) := by
  refine ⟨rfl, ?_, ?_⟩
  · intro h
    simp [processFileContentM, h]
  · intro c hc hopen
    exact ⟨by simp [processFileContentM, hc, hopen],
      lookupChan_updateChan_self reg l.customID _ c hc⟩

/-- C4 witness: one result line delivered to a registered open channel, and
a no-op delivery for an absent id. -/
theorem claim_C4_witness :
    makeResponseChan.capacity = 0 ∧
    processFileContentM [some ⟨"req_1", none, "hello"⟩]
        [("req_1", freshChan)] ["req_1"]
      = some (updateChan [("req_1", freshChan)] "req_1" (.body "hello"),
          (["req_1"] : List String).erase "req_1") ∧
    lookupChan (updateChan [("req_1", freshChan)] "req_1" (.body "hello"))
        "req_1"
      = some ⟨[.body "hello"], true⟩ ∧
    processFileContentM [some ⟨"req_9", none, "x"⟩] [("req_1", freshChan)] []
      = some ([("req_1", freshChan)], []) := by
  refine ⟨(claim_C4_amended [("req_1", freshChan)] ["req_1"]
      ⟨"req_1", none, "hello"⟩).1, ?_, ?_, ?_⟩
  · exact ((claim_C4_amended [("req_1", freshChan)] ["req_1"]
      ⟨"req_1", none, "hello"⟩).2.2 freshChan rfl rfl).1
  · exact ((claim_C4_amended [("req_1", freshChan)] ["req_1"]
      ⟨"req_1", none, "hello"⟩).2.2 freshChan rfl rfl).2
  · exact (claim_C4_amended [("req_1", freshChan)] []
      ⟨"req_9", none, "x"⟩).2.1 rfl

/-- C1 counterexample: a valid interleaving of the code in which an
enrolled caller is left blocked forever on its delivery channel.  From
`sysStart` (handler has registered its pending channel and loaded the
existing lane channel, worker parked at its select with an empty buffer):
the main goroutine broadcasts shutdown; the worker takes the shutdown
branch — nothing to flush — deletes the lane key and terminates; the
handler then completes `ch <- req` into the orphaned capacity-1 lane
channel and blocks on `<-responseChan`.  The resulting state has the id
enrolled, nothing delivered, and no enabled transition at all, so no
delivery can ever occur and the pending channel is never closed. -/
theorem claim_C1_counterexample :
    sysAfterBroadcast ∈ sysNext sysStart ∧
    sysAfterWorkerExit ∈ sysNext sysAfterBroadcast ∧
    sysStuck ∈ sysNext sysAfterWorkerExit ∧
    sysStuck.laneBuf = [theReqID] ∧
    sysStuck.hpc = HandlerPc.waiting ∧
    sysStuck.delivered = false ∧
    sysNext sysStuck = [] :=
  ⟨by decide, by decide, by decide, rfl, rfl, rfl, by decide⟩

/-- C1 amended: the exactly-once delivery guarantee holds per executed
batch rather than for every execution: for every batch handed to the
executor, each owned correlation id registered with a fresh open channel
receives exactly one value — a real response body, a per-line error
document, or a synthesized error document — before its channel is closed,
for any poll outcome and any readable/unreadable result files whose parsed
lines carry distinct ids targeting open-or-absent channels.  The original
claim's universal form (every execution, including shutdown) fails because
enrollment is not gated by the shutdown signal, so an envelope can be
orphaned without ever reaching an executor (see the counterexample). -/
theorem claim_C1_amended (pollRes : Except String BatchDoc)
    (readRes : String → Except String (List (Option ResultLine)))
    (ids : List String) (reg : Registry) (stats : StatsState)
    (hids : ids.Nodup)
    (hreg : ∀ id ∈ ids, lookupChan reg id = some freshChan)
    (hlines : ∀ doc, pollRes = Except.ok doc →
      (filesContribIDs readRes [doc.outputFileID, doc.errorFileID]).Nodup ∧
      (∀ id ∈ filesContribIDs readRes [doc.outputFileID, doc.errorFileID],
        ∀ c, lookupChan reg id = some c → c.closed = false)) :
    ∃ reg1 stats1 tr,
      processBatchResponseM pollRes readRes ids reg stats
        = some (reg1, stats1, tr) ∧
      ∀ id ∈ ids, ∃ v, lookupChan reg1 id = some ⟨[v], true⟩ := by
  cases pollRes with
  | error e =>
    obtain ⟨reg1, stats1, heq, _, hin, _⟩ :=
      sendErrorToAll_effect (fun _ => "Batch processing failed: " ++ e) ids
        reg stats hids
        (fun id hid => ⟨freshChan, hreg id hid, rfl⟩)
    refine ⟨reg1, trackBatchEnd false 0 stats1, [], ?_, ?_⟩
    · simp [processBatchResponseM, heq]
    · intro id hid
      refine ⟨.synthError ("Batch processing failed: " ++ e), ?_⟩
      have h := hin id hid freshChan (hreg id hid)
      simpa [freshChan] using h
  | ok doc =>
    obtain ⟨hnd, hopen⟩ := hlines doc rfl
    obtain ⟨regA, outA, trA, heqA, hnodA, hunchA, hsubA, hkeepA, hdelA, hdmA⟩ :=
      processFiles_effect readRes [doc.outputFileID, doc.errorFileID]
        reg ids [] hnd hopen hids
    have houtreg : ∀ id ∈ outA, ∃ c,
        lookupChan regA id = some c ∧ c.closed = false := by
      intro id hid
      refine ⟨freshChan, ?_, rfl⟩
      rw [hkeepA id hid]
      exact hreg id (hsubA id hid)
    obtain ⟨reg2, stats2, heqB, hunchB, hinB, _⟩ :=
      sendErrorToAll_effect
        (fun id => "No response received for request [" ++ id
          ++ "] in the batch")
        outA regA stats hnodA houtreg
    refine ⟨reg2, trackBatchEnd true 0 stats2, trA, ?_, ?_⟩
    · simp [processBatchResponseM, heqA, heqB]
    · intro id hid
      by_cases hA : id ∈ outA
      · have hcA : lookupChan regA id = some freshChan := by
          rw [hkeepA id hA]
          exact hreg id hid
        refine ⟨.synthError ("No response received for request [" ++ id
          ++ "] in the batch"), ?_⟩
        have h := hinB id hA freshChan hcA
        simpa [freshChan] using h
      · obtain ⟨v, hv⟩ := hdelA id hid hA freshChan (hreg id hid)
        refine ⟨v, ?_⟩
        rw [hunchB id hA]
        simpa [freshChan] using hv

/-- C1 witness: a batch owning req_1 and req_2 whose output file answers
only req_1: req_1 receives the body, req_2 a synthesized error; each
exactly once before its channel closes. -/
theorem claim_C1_witness :
    ∃ reg1 stats1 tr,
      processBatchResponseM
          (Except.ok ⟨"completed", some "file-out", none⟩)
          (fun fid => if fid = "file-out"
            then Except.ok [some ⟨"req_1", none, "hello"⟩]
            else Except.error "no such file")
          ["req_1", "req_2"]
          [("req_1", freshChan), ("req_2", freshChan)] initStats
        = some (reg1, stats1, tr) ∧
      ∀ id ∈ ["req_1", "req_2"], ∃ v, lookupChan reg1 id = some ⟨[v], true⟩ :=
  claim_C1_amended (Except.ok ⟨"completed", some "file-out", none⟩)
    (fun fid => if fid = "file-out"
      then Except.ok [some ⟨"req_1", none, "hello"⟩]
      else Except.error "no such file")
    ["req_1", "req_2"]
    [("req_1", freshChan), ("req_2", freshChan)] initStats
    (by decide)
    (by
      intro id hid
      simp at hid
      rcases hid with h | h <;> subst h <;> rfl)
    (by
      intro doc hdoc
      injection hdoc with h
      subst h
      have h4 : filesContribIDs
          (fun fid => if fid = "file-out"
            then Except.ok [some (⟨"req_1", none, "hello"⟩ : ResultLine)]
            else Except.error "no such file")
          [some "file-out", none] = ["req_1"] := rfl
      constructor
      · rw [h4]
        decide
      · intro id hid c hc
        rw [h4] at hid
        have hid1 : id = "req_1" := by simpa using hid
        subst hid1
        have h2 : lookupChan [("req_1", freshChan), ("req_2", freshChan)]
            "req_1" = some freshChan := rfl
        rw [h2] at hc
        injection hc with h3
        rw [← h3]
        rfl)

/-- C6 counterexample: enrollment is not gated by the shutdown signal at
the handler boundary: after the broadcast the handler's `ch <- req` is
still enabled — and remains enabled even after the worker has flushed,
removed the lane from the registry and terminated, in which case the
envelope lands in the orphaned lane channel. -/
theorem claim_C6_counterexample :
    sysAfterBroadcast.shutdownClosed = true ∧
    ({ sysAfterBroadcast with laneBuf := [theReqID], hpc := .waiting }
      ∈ sysNext sysAfterBroadcast) ∧
    sysAfterWorkerExit.shutdownClosed = true ∧
    sysAfterWorkerExit.wpc = WorkerPc.terminated ∧
    sysAfterWorkerExit.laneRegistered = false ∧
    sysStuck ∈ sysNext sysAfterWorkerExit ∧
    sysStuck.laneBuf = [theReqID] :=
  ⟨rfl, by decide, rfl, rfl, rfl, by decide, rfl⟩

/-- C6 amended: on the shutdown signal the worker flushes a non-empty
buffer, removes its lane from the lane registry and terminates; but the
claim's premise is false — enrollment is not gated by the shutdown signal
at the handler boundary, so a handler that holds the lane channel can
complete its enrollment regardless of the shutdown flag, even after the
worker has terminated. -/
theorem claim_C6_amended (s : SysState) :
    (s.hpc = HandlerPc.gotChan → s.laneBuf = [] →
      { s with laneBuf := [theReqID], hpc := .waiting } ∈ sysNext s) ∧
    (s.wpc = WorkerPc.selecting → s.shutdownClosed = true →
      { s with
          wbuf := [],
          delivered := s.delivered || s.wbuf.contains theReqID,
          laneRegistered := false,
          wpc := .terminated } ∈ sysNext s) := by
  obtain ⟨sd, lr, lb, wb, dv, hp, wp⟩ := s
  constructor
  · intro hh hb
    subst hh
    subst hb
    cases sd <;> cases wp <;> simp [sysNext]
  · intro hw hs
    subst hw
    subst hs
    cases hp <;> simp [sysNext]

/-- C6 witness: at the post-broadcast state the handler's enrollment step
is enabled, and the worker's shutdown step removes the lane and
terminates. -/
theorem claim_C6_witness :
    ({ sysAfterBroadcast with laneBuf := [theReqID], hpc := .waiting }
      ∈ sysNext sysAfterBroadcast) ∧
    ({ sysAfterBroadcast with
        wbuf := [],
        delivered := sysAfterBroadcast.delivered || sysAfterBroadcast.wbuf.contains theReqID,
        laneRegistered := false,
        wpc := .terminated } ∈ sysNext sysAfterBroadcast) :=
  ⟨(claim_C6_amended sysAfterBroadcast).1 rfl rfl,
   (claim_C6_amended sysAfterBroadcast).2 rfl rfl⟩

end LlmProxy
